import Mathlib

/-!
# gnu-ifunc-resolve: a shallow embedding of `gnu-ifunc-resolve.c`

The program asks the dynamic linker for the address of a symbol (`dlsym`),
asks which shared object owns that address (`dladdr`) and, when the linker
knows no name for it, opens the shared object with libelf and scans its
`SHT_SYMTAB` section for an entry whose value is the address relative to the
load base.

The host (dynamic linker, file system, libelf) is a record of functions, the
process state that the claims talk about (open descriptors, live ELF handles,
the two output streams, the library calls made so far) is an explicit `World`
threaded through every function.
-/

namespace GnuIfuncResolve

/-! ## Constants of `<elf.h>` and `<libelf.h>` -/

/-- Section type of the (non-dynamic) symbol table. -/
def SHT_SYMTAB : Nat := 2

/-- Section type of the dynamic symbol table. -/
def SHT_DYNSYM : Nat := 11

/-- Value `elf_version` returns when the requested version is unknown. -/
def EV_NONE : Nat := 0

/-! ## Machine integers -/

/-- Conversion of a 64-bit unsigned value to `ptrdiff_t` (two's complement). -/
def to_ptrdiff (n : Nat) : Int :=
  if n % 18446744073709551616 < 9223372036854775808 then ((n % 18446744073709551616 : Nat) : Int)
  else ((n % 18446744073709551616 : Nat) : Int) - 18446744073709551616

/-- Subtraction of two `ptrdiff_t` values, wrapping to 64 bits as the
    machine instruction does. -/
def ptrdiff_sub (a b : Int) : Int :=
  to_ptrdiff ((a - b) % 18446744073709551616).toNat

/-- Conversion of a 64-bit unsigned value to `int` (32 bits, two's complement). -/
def to_int (n : Nat) : Int :=
  if n % 4294967296 < 2147483648 then ((n % 4294967296 : Nat) : Int)
  else ((n % 4294967296 : Nat) : Int) - 4294967296

/-! ## Data of the host interfaces -/

/-- The fields of `Dl_info` the program reads. -/
structure Dl_info where
  dli_fname : String
  dli_fbase : Nat
  dli_sname : Option String
deriving DecidableEq, Repr

/-- The fields of `GElf_Shdr` the program reads. -/
structure GElf_Shdr where
  sh_type : Nat
  sh_size : Nat
  sh_entsize : Nat
  sh_link : Nat
deriving DecidableEq, Repr

/-- The fields of `GElf_Sym` the program reads. -/
structure GElf_Sym where
  st_name : Nat
  st_value : Nat
deriving DecidableEq, Repr

/-- A section as libelf presents it: `shdr` is what `gelf_getshdr` yields
    (`none` when it fails), `data` is what `elf_getdata` yields, decoded as
    symbol entries (`none` when it returns NULL). -/
structure Elf_Scn where
  shdr : Option GElf_Shdr
  data : Option (List GElf_Sym)
deriving DecidableEq, Repr

/-- An ELF descriptor: the sections `elf_nextscn` enumerates, in order, and
    the string lookup `elf_strptr (section index) (offset)`. -/
structure Elf where
  scns : List Elf_Scn
  strptr : Nat → Nat → Option String

/-- Library and system calls, recorded in the order they are made. -/
inductive Call where
  | dlsym (name : String)
  | dlerror
  | dladdr (addr : Nat)
  | elf_version
  | sys_open (path : String)
  | elf_begin (fd : Nat)
  | elf_nextscn
  | gelf_getshdr
  | elf_getdata
  | gelf_getsym (i : Nat)
  | elf_strptr (link : Nat) (off : Nat)
  | elf_end (fd : Nat)
  | sys_close (fd : Nat)
deriving DecidableEq, Repr

/-- The host environment of one process run. -/
structure Host where
  /-- Result of `dlsym (RTLD_DEFAULT, name)`, `0` being NULL. -/
  dlsym : String → Nat
  /-- Message `dlerror ()` gives after the given call failed. -/
  dlerror : Call → String
  /-- Result of `dladdr (addr, &dli)`: `none` when it returns 0. -/
  dladdr : Nat → Option Dl_info
  /-- Result of `elf_version (EV_CURRENT)`. -/
  elf_version : Nat
  /-- Result of `open (path, O_RDONLY)`: the errno, or the file, given as the
      outcome `elf_begin` has on it (`none` when `elf_begin` returns NULL). -/
  sys_open : String → Except Nat (Option Elf)
  /-- Text of `strerror (errno)`. -/
  strerror : Nat → String
  /-- Contents of the uninitialised local `shdr`. -/
  stack_shdr : GElf_Shdr
  /-- Contents of the uninitialised local `sym` in iteration `i`. -/
  stack_sym : Nat → GElf_Sym
  /-- Result of `gnu_get_libc_version ()`. -/
  libc_version : String
  /-- Result of `gnu_get_libc_release ()`. -/
  libc_release : String

/-- The process state the program acts on. -/
structure World where
  /-- Open file descriptors. -/
  fds : List Nat
  /-- Live ELF descriptors, named by the descriptor they were begun on. -/
  elfs : List Nat
  /-- Lines written to standard output. -/
  out : List String
  /-- Lines written to standard error. -/
  err : List String
  /-- Library and system calls made so far. -/
  calls : List Call
deriving DecidableEq, Repr

/-- Record a call. -/
def World.call (w : World) (c : Call) : World :=
  { w with calls := w.calls ++ [c] }

/-- Write a line to standard output. -/
def World.print (w : World) (s : String) : World :=
  { w with out := w.out ++ [s] }

/-- Write a line to standard error. -/
def World.eprint (w : World) (s : String) : World :=
  { w with err := w.err ++ [s] }

/-- The descriptor `open` hands out: the lowest one not in use. -/
def lowest_free (fds : List Nat) : Nat :=
  ((List.range (fds.length + 1)).find? (fun n => !fds.contains n)).getD fds.length

/-- Format of `%p` for a non-null pointer. -/
def fmt_ptr (a : Nat) : String :=
  "0x" ++ String.mk (Nat.toDigits 16 a)

/-- How a call of `gnu_ifunc_resolve` ends: by the `return` statement at
    source line `line` with value `val` (`none` being NULL), or by the
    undefined integer division by zero at line 102. -/
inductive Result where
  | ret (line : Nat) (val : Option String)
  | fault
deriving DecidableEq, Repr

/-- Value returned, when the call returns. -/
def Result.value : Result → Option String
  | .ret _ v => v
  | .fault => none

/-- Whether the call returns. -/
def Result.returns : Result → Bool
  | .ret _ _ => true
  | .fault => false

/-! ## The program -/

/-- Lines 88-97: the section loop. Yields the final `scn` (`none` after the
    enumeration ran out), the final contents of `shdr` and the world. -/
def find_symtab : List Elf_Scn → GElf_Shdr → World → Option Elf_Scn × GElf_Shdr × World
  | [], shdr, w => (none, shdr, w.call .elf_nextscn)
  | scn :: rest, shdr, w =>
    let w := (w.call .elf_nextscn).call .gelf_getshdr
    match scn.shdr with
    | some hd =>
      if hd.sh_type = SHT_SYMTAB then (some scn, hd, w)
      else find_symtab rest hd w
    | none => find_symtab rest shdr w

/-- Call `elf_getdata (scn, NULL)`: NULL for a NULL section. -/
def elf_getdata : Option Elf_Scn → Option (List GElf_Sym)
  | none => none
  | some scn => scn.data

/-- Call `gelf_getsym (data, i, &sym)`: `none` when the index is outside the
    data, in which case `sym` is not written. -/
def gelf_getsym (data : List GElf_Sym) (i : Nat) : Option GElf_Sym :=
  data[i]?

/-- Contents of the local `sym` after `gelf_getsym (sec_data, i, &sym)` in
    iteration `i`: the entry read, or what the stack held when nothing was
    written. -/
def sym_at (stack_sym : Nat → GElf_Sym) (data : List GElf_Sym) (i : Nat) : GElf_Sym :=
  (gelf_getsym data i).getD (stack_sym i)

/-- Lines 103-109: the loop `for (i = 0; i < nsyms; i++)`, entered at index
    `i` with `remaining` iterations to go. Yields the matching entry, if any. -/
def scan_loop (stack_sym : Nat → GElf_Sym) (data : List GElf_Sym) (sym_rel_addr : Int) :
    (remaining : Nat) → (i : Nat) → World → Option GElf_Sym × World
  | 0, _, w => (none, w)
  | k + 1, i, w =>
    let w := w.call (.gelf_getsym i)
    let sym := sym_at stack_sym data i
    if to_ptrdiff sym.st_value = sym_rel_addr then (some sym, w)
    else scan_loop stack_sym data sym_rel_addr k (i + 1) w

/-- Lines 112-114: release both handles and return NULL. -/
def release (fd : Nat) (w : World) : Result × World :=
  let w := w.call (.elf_end fd)
  let w := { w with elfs := w.elfs.erase fd }
  let w := w.call (.sys_close fd)
  let w := { w with fds := w.fds.erase fd }
  (.ret 114 none, w)

/-- Lines 99-114: find the symbol by relative address in the section found. -/
def find_symbol (h : Host) (elf : Elf) (fd : Nat) (scn : Option Elf_Scn) (shdr : GElf_Shdr)
    (sym_rel_addr : Int) (w : World) : Result × World :=
  let w := w.call .elf_getdata
  match elf_getdata scn with
  | some sec_data =>
    if shdr.sh_entsize = 0 then (.fault, w)
    else
      let nsyms : Int := to_int (shdr.sh_size / shdr.sh_entsize)
      match scan_loop h.stack_sym sec_data sym_rel_addr nsyms.toNat 0 w with
      | (some sym, w) =>
        let w := w.call (.elf_strptr shdr.sh_link sym.st_name)
        (.ret 107 (elf.strptr shdr.sh_link sym.st_name), w)
      | (none, w) => release fd w
  | none => release fd w

/-- Lines 42-115: `gnu_ifunc_resolve`. -/
def gnu_ifunc_resolve (h : Host) (ifunc_name : String) (w : World) : Result × World :=
  let w := w.call (.dlsym ifunc_name)
  let ifunc_addr := h.dlsym ifunc_name
  if ifunc_addr = 0 then
    let w := w.call .dlerror
    (.ret 49 none,
      w.eprint ("Error: can not obtain address of a symbol '" ++ ifunc_name ++ "': "
        ++ h.dlerror (.dlsym ifunc_name) ++ "\n"))
  else
    let w := w.call (.dladdr ifunc_addr)
    match h.dladdr ifunc_addr with
    | none =>
      let w := w.call .dlerror
      (.ret 58 none,
        w.eprint ("Error: can not match the address " ++ fmt_ptr ifunc_addr
          ++ " to a shared object: " ++ h.dlerror (.dladdr ifunc_addr) ++ "\n"))
    | some dli =>
      match dli.dli_sname with
      | some sname => (.ret 62 (some sname), w)
      | none =>
        let sym_rel_addr := ptrdiff_sub (to_ptrdiff ifunc_addr) (to_ptrdiff dli.dli_fbase)
        let w := w.call .elf_version
        if h.elf_version = EV_NONE then
          (.ret 71 none, w.eprint "Error: ELF library too old\n")
        else
          let w := w.call (.sys_open dli.dli_fname)
          match h.sys_open dli.dli_fname with
          | .error errno =>
            (.ret 78 none,
              w.eprint ("Error: can not open ELF file '" ++ dli.dli_fname ++ "': "
                ++ h.strerror errno ++ "\n"))
          | .ok file =>
            let fd := lowest_free w.fds
            let w := { w with fds := fd :: w.fds }
            let w := w.call (.elf_begin fd)
            match file with
            | none =>
              let w := w.call (.sys_close fd)
              let w := { w with fds := w.fds.erase fd }
              (.ret 84 none,
                w.eprint ("Error: can not open ELF file '" ++ dli.dli_fname ++ "'\n"))
            | some elf =>
              let w := { w with elfs := fd :: w.elfs }
              match find_symtab elf.scns h.stack_shdr w with
              | (scn, shdr, w) => find_symbol h elf fd scn shdr sym_rel_addr w

/-- The names the driver queries (line 121). -/
def ifunc_syms : List String :=
  ["memcpy", "strcmp", "malloc", "strlen", "strcmp", "strcpy", "cos"]

/-- Lines 124-131: the loop of `main` over the remaining names. Yields the
    exit status, `none` when a query ended the process. -/
def main_loop (h : Host) : List String → World → Option Nat × World
  | [], w => (some 0, w)
  | name :: rest, w =>
    match gnu_ifunc_resolve h name w with
    | (.ret _ (some sym), w) =>
      main_loop h rest
        (w.print ("GNU IFUNC '" ++ name ++ "' is resolved to '" ++ sym ++ "'\n"))
    | (.ret _ none, w) =>
      main_loop h rest (w.eprint ("Error: can not resolve ifunc '" ++ name ++ "'\n"))
    | (.fault, w) => (none, w)

/-- Lines 117-133: `main`. -/
def main (h : Host) (w : World) : Option Nat × World :=
  main_loop h ifunc_syms
    (w.print ("GNU libc version: " ++ h.libc_version ++ ", release: " ++ h.libc_release ++ "\n"))

/-! ## Concrete hosts used to exercise the model -/

/-- A string table: section 5 holds three names. -/
def demo_strptr (link off : Nat) : Option String :=
  if link = 5 then
    (if off = 1 then some "__memmove_avx_unaligned_erms"
     else if off = 30 then some "__strcmp_avx2"
     else if off = 44 then some "__memcpy_alias"
     else none)
  else none

/-- Header of a symbol table of `n` entries of 24 bytes, names in section 5. -/
def demo_symtab_shdr (n : Nat) : GElf_Shdr :=
  { sh_type := SHT_SYMTAB, sh_size := 24 * n, sh_entsize := 24, sh_link := 5 }

/-- A symbol table with two entries at the same value. -/
def demo_syms : List GElf_Sym :=
  [{ st_name := 0, st_value := 0 }, { st_name := 30, st_value := 4096 },
   { st_name := 1, st_value := 8192 }, { st_name := 44, st_value := 8192 }]

/-- An object with a dynamic symbol table, a section whose header cannot be
    read, and a symbol table. -/
def demo_elf : Elf :=
  { scns :=
      [{ shdr := some { sh_type := SHT_DYNSYM, sh_size := 48, sh_entsize := 0, sh_link := 4 },
         data := some [{ st_name := 1, st_value := 8192 }] },
       { shdr := none, data := none },
       { shdr := some (demo_symtab_shdr 4), data := some demo_syms }],
    strptr := demo_strptr }

/-- A stripped object: only the dynamic symbol table is left. -/
def stripped_elf : Elf :=
  { scns :=
      [{ shdr := some { sh_type := SHT_DYNSYM, sh_size := 48, sh_entsize := 0, sh_link := 4 },
         data := some [{ st_name := 1, st_value := 8192 }] }],
    strptr := demo_strptr }

/-- An object whose only section is a symbol table with header `hd` and
    entries `data`. -/
def symtab_elf (hd : GElf_Shdr) (data : List GElf_Sym) : Elf :=
  { scns := [{ shdr := some hd, data := some data }], strptr := demo_strptr }

/-- A symbol table with values in the upper half of the 64-bit range. -/
def wrapped_syms : List GElf_Sym :=
  [{ st_name := 0, st_value := 0 }, { st_name := 30, st_value := 18446744073708503040 },
   { st_name := 1, st_value := 18446744073709547520 }]

/-- A host on which every name resolves to address `addr`, owned by the
    object `/lib/libc.so.6` loaded at `base`. -/
def demo_host (addr base : Nat) (sname : Option String) (version : Nat)
    (file : Except Nat (Option Elf)) : Host :=
  { dlsym := fun _ => addr,
    dlerror := fun _ => "undefined symbol",
    dladdr := fun _ => some { dli_fname := "/lib/libc.so.6", dli_fbase := base, dli_sname := sname },
    elf_version := version,
    sys_open := fun _ => file,
    strerror := fun e => if e = 2 then "No such file or directory" else "Permission denied",
    stack_shdr := { sh_type := SHT_SYMTAB, sh_size := 7, sh_entsize := 0, sh_link := 0 },
    stack_sym := fun _ => { st_name := 0, st_value := 0 },
    libc_version := "2.28",
    libc_release := "stable" }

/-- A host that knows no symbol at all. -/
def empty_host : Host :=
  { demo_host 0 0 none 1 (.error 2) with dlsym := fun _ => 0 }

/-- A host on which `strcmp` is unknown, `cos` lies at an address no symbol
    starts at, and every other name lies at the address of a local symbol. -/
def mixed_host : Host :=
  { demo_host 1056768 1048576 none 1 (.ok (some demo_elf)) with
    dlsym := fun n => if n = "strcmp" then 0 else if n = "cos" then 1052673 else 1056768 }

/-- A host on which `memcpy` is unknown and every other name lies in an
    object whose symbol table header has `sh_entsize = 0`. -/
def faulting_host : Host :=
  { demo_host 1056768 1048576 none 1 (.ok (some (symtab_elf
      { sh_type := SHT_SYMTAB, sh_size := 96, sh_entsize := 0, sh_link := 5 } demo_syms))) with
    dlsym := fun n => if n = "memcpy" then 0 else 1056768 }

/-- A process with the three standard descriptors open. -/
def world0 : World :=
  { fds := [0, 1, 2], elfs := [], out := [], err := [], calls := [] }

/-! ## Vocabulary of the statements -/

/-- The query `name` gets as far as the scanner: the lookup and the
    introspection succeed, the linker knows no name, libelf accepts the
    version, and the module file opens and parses as `elf`. -/
structure ReachesScanner (h : Host) (name : String) (dli : Dl_info) (elf : Elf) : Prop where
  hsym : h.dlsym name ≠ 0
  haddr : h.dladdr (h.dlsym name) = some dli
  hname : dli.dli_sname = none
  hver : h.elf_version ≠ EV_NONE
  hopen : h.sys_open dli.dli_fname = .ok (some elf)

/-- The first section of `elf` whose header reads as `SHT_SYMTAB` is `scn`,
    with header `hd` and entries `data`; `pre` are the sections before it. -/
structure SymtabAt (elf : Elf) (pre : List Elf_Scn) (scn : Elf_Scn) (post : List Elf_Scn)
    (hd : GElf_Shdr) (data : List GElf_Sym) : Prop where
  hscns : elf.scns = pre ++ scn :: post
  hpre : ∀ s ∈ pre, ∀ hd0, s.shdr = some hd0 → hd0.sh_type ≠ SHT_SYMTAB
  hshdr : scn.shdr = some hd
  htype : hd.sh_type = SHT_SYMTAB
  hdata : scn.data = some data

/-- The header `hd` describes the entries `data`: the entry size is not
    zero, size divided by entry size is the number of entries, that number
    fits an `int`, and every value is a 64-bit unsigned number. -/
structure WellFormedSymtab (hd : GElf_Shdr) (data : List GElf_Sym) : Prop where
  hent : hd.sh_entsize ≠ 0
  hcount : hd.sh_size / hd.sh_entsize = data.length
  hint : data.length < 2147483648
  hval : ∀ e ∈ data, e.st_value < 18446744073709551616

/-- The calls made from line 45 to line 81 on the way to the scanner. -/
def entry_calls (name : String) (addr : Nat) (fname : String) (fd : Nat) : List Call :=
  [.dlsym name, .dladdr addr, .elf_version, .sys_open fname, .elf_begin fd]

/-- The world at line 87: both handles are acquired. -/
def at_scanner (w : World) (name : String) (addr : Nat) (fname : String) : World :=
  { w with
    fds := lowest_free w.fds :: w.fds,
    elfs := lowest_free w.fds :: w.elfs,
    calls := w.calls ++ entry_calls name addr fname (lowest_free w.fds) }

/-- Whether a call is a `dlsym`. -/
def Call.is_dlsym : Call → Bool
  | .dlsym _ => true
  | _ => false

/-- The names handed to `dlsym`, in the order of the calls. -/
def looked_up (cs : List Call) : List String :=
  cs.filterMap (fun c => match c with
    | .dlsym n => some n
    | _ => none)

/-- A process that has nothing open and has done nothing yet. -/
def blank : World :=
  { fds := [], elfs := [], out := [], err := [], calls := [] }

/-- How the query `name` ends on host `h`. -/
def resolved (h : Host) (name : String) : Result :=
  (gnu_ifunc_resolve h name blank).1

/-- The diagnostics the query `name` writes on host `h`. -/
def diagnostics (h : Host) (name : String) : List String :=
  (gnu_ifunc_resolve h name blank).2.err

/-- The line the driver prints for `name` resolved to `sym` (line 127). -/
def success_line (name sym : String) : String :=
  "GNU IFUNC '" ++ name ++ "' is resolved to '" ++ sym ++ "'\n"

/-- The line the driver writes to standard error for `name` (line 129). -/
def failure_line (name : String) : String :=
  "Error: can not resolve ifunc '" ++ name ++ "'\n"

/-- The preamble the driver prints (line 119). -/
def preamble (h : Host) : String :=
  "GNU libc version: " ++ h.libc_version ++ ", release: " ++ h.libc_release ++ "\n"

/-- What one query adds to standard output: its success line, if it
    succeeds. -/
def report_out (h : Host) (name : String) : List String :=
  match (resolved h name).value with
  | some sym => [success_line name sym]
  | none => []

/-- What one query adds to standard error: the diagnostics of the resolver,
    then the failure line of the driver, if it fails. -/
def report_err (h : Host) (name : String) : List String :=
  match (resolved h name).value with
  | some _ => diagnostics h name
  | none => diagnostics h name ++ [failure_line name]

/-- The source lines of the `return` statements that come before the scan
    loop or after it. -/
def lines_outside_loop : List Nat := [49, 58, 62, 71, 78, 84, 114]

/-- The indices handed to `gelf_getsym`, in the order of the calls. -/
def examined (cs : List Call) : List Nat :=
  cs.filterMap (fun c => match c with
    | .gelf_getsym i => some i
    | _ => none)

/-- The calls the section loop makes while it passes `n` sections. -/
def scn_calls : Nat → List Call
  | 0 => []
  | n + 1 => .elf_nextscn :: .gelf_getshdr :: scn_calls n

/-- The calls the symbol loop makes while it examines the indices below `n`. -/
def sym_calls (n : Nat) : List Call :=
  (List.range n).map Call.gelf_getsym

/-! ## Machine arithmetic -/

theorem to_ptrdiff_eq_iff (a b : Nat) (ha : a < 18446744073709551616)
    (hb : b < 18446744073709551616) : to_ptrdiff a = to_ptrdiff b ↔ a = b := by
  unfold to_ptrdiff
  constructor
  · intro h
    split_ifs at h <;> omega
  · intro h
    rw [h]

theorem ptrdiff_sub_of_le (a b : Nat) (ha : a < 18446744073709551616) (hba : b ≤ a) :
    ptrdiff_sub (to_ptrdiff a) (to_ptrdiff b) = to_ptrdiff (a - b) := by
  unfold ptrdiff_sub
  congr 1
  unfold to_ptrdiff
  split_ifs <;> omega

theorem ptrdiff_sub_of_lt (a b : Nat) (hb : b < 18446744073709551616) (hab : a < b) :
    ptrdiff_sub (to_ptrdiff a) (to_ptrdiff b) = to_ptrdiff (18446744073709551616 + a - b) := by
  unfold ptrdiff_sub
  congr 1
  unfold to_ptrdiff
  split_ifs <;> omega

theorem to_int_of_lt (n : Nat) (hn : n < 2147483648) : to_int n = (n : Int) := by
  unfold to_int
  split_ifs <;> omega

/-! ## The two loops -/

theorem scan_loop_no_match (ss : Nat → GElf_Sym) (data : List GElf_Sym) (rel : Int) :
    ∀ (k i : Nat) (w : World),
      (∀ j, j < k → to_ptrdiff (sym_at ss data (i + j)).st_value ≠ rel) →
      scan_loop ss data rel k i w =
        (none,
          { w with calls := w.calls ++ (List.range k).map (fun j => Call.gelf_getsym (i + j)) })
  | 0, i, w, _ => by simp [scan_loop]
  | k + 1, i, w, hno => by
    have h0 : to_ptrdiff (sym_at ss data i).st_value ≠ rel := by
      simpa using hno 0 (Nat.succ_pos k)
    have hrest : ∀ j, j < k → to_ptrdiff (sym_at ss data (i + 1 + j)).st_value ≠ rel := by
      intro j hj
      have := hno (j + 1) (Nat.succ_lt_succ hj)
      rwa [show i + (j + 1) = i + 1 + j by omega] at this
    rw [scan_loop]
    simp only [h0, if_false]
    rw [scan_loop_no_match ss data rel k (i + 1) _ hrest]
    simp [World.call, List.range_succ_eq_map, Function.comp_def, Nat.add_assoc, Nat.add_comm 1]

theorem scan_loop_first_match (ss : Nat → GElf_Sym) (data : List GElf_Sym) (rel : Int) :
    ∀ (k i : Nat) (w : World) (m : Nat), m < k →
      (∀ j, j < m → to_ptrdiff (sym_at ss data (i + j)).st_value ≠ rel) →
      to_ptrdiff (sym_at ss data (i + m)).st_value = rel →
      scan_loop ss data rel k i w =
        (some (sym_at ss data (i + m)),
          { w with
            calls := w.calls ++ (List.range (m + 1)).map (fun j => Call.gelf_getsym (i + j)) })
  | 0, _, _, _, hm, _, _ => absurd hm (Nat.not_lt_zero _)
  | k + 1, i, w, 0, _, _, hhit => by
    rw [scan_loop]
    simp only [Nat.add_zero] at hhit
    simp [hhit, World.call, List.range_succ]
  | k + 1, i, w, m + 1, hm, hno, hhit => by
    have h0 : to_ptrdiff (sym_at ss data i).st_value ≠ rel := by
      simpa using hno 0 (Nat.succ_pos m)
    have hrest : ∀ j, j < m → to_ptrdiff (sym_at ss data (i + 1 + j)).st_value ≠ rel := by
      intro j hj
      have := hno (j + 1) (Nat.succ_lt_succ hj)
      rwa [show i + (j + 1) = i + 1 + j by omega] at this
    have hhit1 : to_ptrdiff (sym_at ss data (i + 1 + m)).st_value = rel := by
      rwa [show i + (m + 1) = i + 1 + m by omega] at hhit
    rw [scan_loop]
    simp only [h0, if_false]
    rw [scan_loop_first_match ss data rel k (i + 1) _ m (Nat.lt_of_succ_lt_succ hm) hrest hhit1]
    rw [show i + (m + 1) = i + 1 + m by omega]
    simp [World.call, List.range_succ_eq_map (m + 1), Function.comp_def, Nat.add_assoc,
      Nat.add_comm 1]

theorem find_symtab_none :
    ∀ (scns : List Elf_Scn) (shdr : GElf_Shdr) (w : World),
      (∀ s ∈ scns, ∀ hd, s.shdr = some hd → hd.sh_type ≠ SHT_SYMTAB) →
      ∃ last : GElf_Shdr, find_symtab scns shdr w =
        (none, last, { w with calls := w.calls ++ scn_calls scns.length ++ [.elf_nextscn] })
  | [], shdr, w, _ => ⟨shdr, by simp [find_symtab, scn_calls, World.call]⟩
  | scn :: rest, shdr, w, hno => by
    have hrest : ∀ s ∈ rest, ∀ hd, s.shdr = some hd → hd.sh_type ≠ SHT_SYMTAB :=
      fun s hs => hno s (List.mem_cons_of_mem _ hs)
    rw [find_symtab]
    cases hsh : scn.shdr with
    | none =>
      obtain ⟨last, hlast⟩ := find_symtab_none rest shdr
        ((w.call .elf_nextscn).call .gelf_getshdr) hrest
      refine ⟨last, ?_⟩
      simp only []
      rw [hlast]
      simp [World.call, scn_calls]
    | some hd =>
      have hty : hd.sh_type ≠ SHT_SYMTAB := hno scn (List.mem_cons_self _ _) hd hsh
      obtain ⟨last, hlast⟩ := find_symtab_none rest hd
        ((w.call .elf_nextscn).call .gelf_getshdr) hrest
      refine ⟨last, ?_⟩
      simp only [hty, if_false]
      rw [hlast]
      simp [World.call, scn_calls]

theorem find_symtab_found (scn : Elf_Scn) (hd : GElf_Shdr) (post : List Elf_Scn)
    (hscn : scn.shdr = some hd) (hty : hd.sh_type = SHT_SYMTAB) :
    ∀ (pre : List Elf_Scn) (shdr : GElf_Shdr) (w : World),
      (∀ s ∈ pre, ∀ hd0, s.shdr = some hd0 → hd0.sh_type ≠ SHT_SYMTAB) →
      find_symtab (pre ++ scn :: post) shdr w =
        (some scn, hd, { w with calls := w.calls ++ scn_calls (pre.length + 1) })
  | [], shdr, w, _ => by
    simp [find_symtab, hscn, hty, scn_calls, World.call]
  | s :: pre, shdr, w, hno => by
    have hrest : ∀ t ∈ pre, ∀ hd0, t.shdr = some hd0 → hd0.sh_type ≠ SHT_SYMTAB :=
      fun t ht => hno t (List.mem_cons_of_mem _ ht)
    rw [List.cons_append, find_symtab]
    cases hsh : s.shdr with
    | none =>
      simp only []
      rw [find_symtab_found scn hd post hscn hty pre shdr _ hrest]
      simp [World.call, scn_calls]
    | some hd0 =>
      have hty0 : hd0.sh_type ≠ SHT_SYMTAB := hno s (List.mem_cons_self _ _) hd0 hsh
      simp only [hty0, if_false]
      rw [find_symtab_found scn hd post hscn hty pre hd0 _ hrest]
      simp [World.call, scn_calls]

/-! ## What a call changes in the world, whatever the host -/

theorem find_symtab_frame :
    ∀ (scns : List Elf_Scn) (shdr : GElf_Shdr),
      ∃ (scn : Option Elf_Scn) (hd : GElf_Shdr) (cs : List Call),
        (∀ c ∈ cs, c = Call.elf_nextscn ∨ c = Call.gelf_getshdr)
          ∧ ∀ w : World, find_symtab scns shdr w = (scn, hd, { w with calls := w.calls ++ cs })
  | [], shdr => ⟨none, shdr, [.elf_nextscn], by simp, fun w => by simp [find_symtab, World.call]⟩
  | s :: rest, shdr => by
    cases hsh : s.shdr with
    | none =>
      obtain ⟨scn, hd, cs, hcs, hrun⟩ := find_symtab_frame rest shdr
      refine ⟨scn, hd, .elf_nextscn :: .gelf_getshdr :: cs, ?_, fun w => ?_⟩
      · intro c hc
        simp only [List.mem_cons] at hc
        rcases hc with rfl | rfl | hc
        · exact Or.inl rfl
        · exact Or.inr rfl
        · exact hcs c hc
      · rw [find_symtab]
        simp only [hsh]
        rw [hrun]
        simp [World.call]
    | some hd0 =>
      by_cases hty : hd0.sh_type = SHT_SYMTAB
      · refine ⟨some s, hd0, [.elf_nextscn, .gelf_getshdr], ?_, fun w => ?_⟩
        · intro c hc
          simp only [List.mem_cons, List.mem_singleton, List.not_mem_nil, or_false] at hc
          exact hc
        · rw [find_symtab]
          simp [hsh, hty, World.call]
      · obtain ⟨scn, hd, cs, hcs, hrun⟩ := find_symtab_frame rest hd0
        refine ⟨scn, hd, .elf_nextscn :: .gelf_getshdr :: cs, ?_, fun w => ?_⟩
        · intro c hc
          simp only [List.mem_cons] at hc
          rcases hc with rfl | rfl | hc
          · exact Or.inl rfl
          · exact Or.inr rfl
          · exact hcs c hc
        · rw [find_symtab]
          simp only [hsh, hty, if_false]
          rw [hrun]
          simp [World.call]

theorem scan_loop_frame (ss : Nat → GElf_Sym) (data : List GElf_Sym) (rel : Int) :
    ∀ (k i : Nat),
      ∃ (r : Option GElf_Sym) (cs : List Call),
        (∀ c ∈ cs, ∃ j, c = Call.gelf_getsym j)
          ∧ ∀ w : World, scan_loop ss data rel k i w = (r, { w with calls := w.calls ++ cs })
  | 0, _ => ⟨none, [], by simp, fun w => by simp [scan_loop]⟩
  | k + 1, i => by
    by_cases hhit : to_ptrdiff (sym_at ss data i).st_value = rel
    · refine ⟨some (sym_at ss data i), [.gelf_getsym i], ?_, fun w => ?_⟩
      · intro c hc
        exact ⟨i, List.mem_singleton.mp hc⟩
      · rw [scan_loop]
        simp [hhit, World.call]
    · obtain ⟨r, cs, hcs, hrun⟩ := scan_loop_frame ss data rel k (i + 1)
      refine ⟨r, .gelf_getsym i :: cs, ?_, fun w => ?_⟩
      · intro c hc
        simp only [List.mem_cons] at hc
        rcases hc with rfl | hc
        · exact ⟨i, rfl⟩
        · exact hcs c hc
      · rw [scan_loop]
        simp only [hhit, if_false]
        rw [hrun]
        simp [World.call]

theorem find_symbol_frame (h : Host) (elf : Elf) (fd : Nat) (scn : Option Elf_Scn)
    (shdr : GElf_Shdr) (rel : Int) :
    ∃ (r : Result) (cs : List Call), (∀ c ∈ cs, c.is_dlsym = false)
      ∧ ((((∃ v, r = .ret 107 v) ∨ r = .fault)
          ∧ ∀ w : World, find_symbol h elf fd scn shdr rel w =
              (r, { w with calls := w.calls ++ cs }))
        ∨ (r = .ret 114 none
          ∧ ∀ w : World, find_symbol h elf fd scn shdr rel w =
              (r, { w with
                    fds := w.fds.erase fd, elfs := w.elfs.erase fd,
                    calls := w.calls ++ cs }))) := by
  cases hdata : elf_getdata scn with
  | none =>
    refine ⟨.ret 114 none, [.elf_getdata, .elf_end fd, .sys_close fd], ?_, Or.inr ⟨rfl, fun w => ?_⟩⟩
    · intro c hc
      simp only [List.mem_cons, List.mem_singleton, List.not_mem_nil, or_false] at hc
      rcases hc with rfl | rfl | rfl <;> rfl
    · simp [find_symbol, hdata, release, World.call]
  | some sec_data =>
    by_cases hent : shdr.sh_entsize = 0
    · refine ⟨.fault, [.elf_getdata], ?_, Or.inl ⟨Or.inr rfl, fun w => ?_⟩⟩
      · intro c hc
        rw [List.mem_singleton.mp hc]; rfl
      · simp [find_symbol, hdata, hent, World.call]
    · obtain ⟨r, cs, hcs, hrun⟩ := scan_loop_frame h.stack_sym sec_data rel
        (to_int (shdr.sh_size / shdr.sh_entsize)).toNat 0
      have hcs0 : ∀ c ∈ cs, c.is_dlsym = false := by
        intro c hc
        obtain ⟨j, rfl⟩ := hcs c hc
        rfl
      cases r with
      | none =>
        refine ⟨.ret 114 none, .elf_getdata :: cs ++ [.elf_end fd, .sys_close fd], ?_,
          Or.inr ⟨rfl, fun w => ?_⟩⟩
        · intro c hc
          simp only [List.mem_append, List.mem_cons, List.mem_singleton, List.not_mem_nil,
            or_false] at hc
          rcases hc with (rfl | hc) | rfl | rfl
          · rfl
          · exact hcs0 c hc
          · rfl
          · rfl
        · simp only [find_symbol, hdata, hent, if_false]
          rw [hrun]
          simp [release, World.call]
      | some sym =>
        refine ⟨.ret 107 (elf.strptr shdr.sh_link sym.st_name),
          .elf_getdata :: cs ++ [.elf_strptr shdr.sh_link sym.st_name], ?_,
          Or.inl ⟨Or.inl ⟨_, rfl⟩, fun w => ?_⟩⟩
        · intro c hc
          simp only [List.mem_append, List.mem_cons, List.mem_singleton, List.not_mem_nil,
            or_false] at hc
          rcases hc with (rfl | hc) | rfl
          · rfl
          · exact hcs0 c hc
          · rfl
        · simp only [find_symbol, hdata, hent, if_false]
          rw [hrun]
          simp [World.call]

/-! ## From the entry of the scanner to its result -/

theorem resolve_at_scanner (h : Host) (name : String) (w : World) (dli : Dl_info) (elf : Elf)
    (hr : ReachesScanner h name dli elf) :
    gnu_ifunc_resolve h name w =
      find_symbol h elf (lowest_free w.fds)
        (find_symtab elf.scns h.stack_shdr (at_scanner w name (h.dlsym name) dli.dli_fname)).1
        (find_symtab elf.scns h.stack_shdr (at_scanner w name (h.dlsym name) dli.dli_fname)).2.1
        (ptrdiff_sub (to_ptrdiff (h.dlsym name)) (to_ptrdiff dli.dli_fbase))
        (find_symtab elf.scns h.stack_shdr
          (at_scanner w name (h.dlsym name) dli.dli_fname)).2.2 := by
  simp [gnu_ifunc_resolve, hr.hsym, hr.haddr, hr.hname, hr.hver, hr.hopen, World.call,
    at_scanner, entry_calls]

theorem resolve_frame (h : Host) (name : String) :
    ∃ (r : Result) (errs : List String), ∀ w : World, ∃ cs : List Call,
      (∀ c ∈ cs, c.is_dlsym = false)
        ∧ ((((∃ v, r = .ret 107 v) ∨ r = .fault)
            ∧ gnu_ifunc_resolve h name w =
                (r, { w with
                      fds := lowest_free w.fds :: w.fds,
                      elfs := lowest_free w.fds :: w.elfs,
                      err := w.err ++ errs,
                      calls := w.calls ++ .dlsym name :: cs }))
          ∨ ((∃ line v, r = .ret line v ∧ line ∈ lines_outside_loop
              ∧ (line = 84 → ∃ cs0, cs = cs0 ++
                  [.elf_begin (lowest_free w.fds), .sys_close (lowest_free w.fds)]))
            ∧ gnu_ifunc_resolve h name w =
                (r, { w with err := w.err ++ errs, calls := w.calls ++ .dlsym name :: cs }))) := by
  by_cases hsym : h.dlsym name = 0
  · refine ⟨.ret 49 none, ["Error: can not obtain address of a symbol '" ++ name ++ "': "
        ++ h.dlerror (.dlsym name) ++ "\n"], fun w => ⟨[.dlerror], ?_, Or.inr ⟨⟨49, none, rfl, by decide, fun hl => absurd hl (by decide)⟩, ?_⟩⟩⟩
    · intro c hc
      rw [List.mem_singleton.mp hc]; rfl
    · simp only [gnu_ifunc_resolve, hsym, if_true, World.call, World.eprint]
      simp
  cases haddr : h.dladdr (h.dlsym name) with
  | none =>
    refine ⟨.ret 58 none, ["Error: can not match the address " ++ fmt_ptr (h.dlsym name)
          ++ " to a shared object: " ++ h.dlerror (.dladdr (h.dlsym name)) ++ "\n"], fun w =>
      ⟨[.dladdr (h.dlsym name), .dlerror], ?_, Or.inr ⟨⟨58, none, rfl, by decide, fun hl => absurd hl (by decide)⟩, ?_⟩⟩⟩
    · intro c hc
      simp only [List.mem_cons, List.mem_singleton, List.not_mem_nil, or_false] at hc
      rcases hc with rfl | rfl <;> rfl
    · simp only [gnu_ifunc_resolve, hsym, haddr, if_false, World.call, World.eprint]
      simp
  | some dli =>
    cases hname : dli.dli_sname with
    | some sname =>
      refine ⟨.ret 62 (some sname), [], fun w =>
        ⟨[.dladdr (h.dlsym name)], ?_, Or.inr ⟨⟨62, _, rfl, by decide, fun hl => absurd hl (by decide)⟩, ?_⟩⟩⟩
      · intro c hc
        rw [List.mem_singleton.mp hc]; rfl
      · simp [gnu_ifunc_resolve, hsym, haddr, hname, World.call]
    | none =>
      by_cases hver : h.elf_version = EV_NONE
      · refine ⟨.ret 71 none, ["Error: ELF library too old\n"], fun w =>
          ⟨[.dladdr (h.dlsym name), .elf_version], ?_, Or.inr ⟨⟨71, none, rfl, by decide, fun hl => absurd hl (by decide)⟩, ?_⟩⟩⟩
        · intro c hc
          simp only [List.mem_cons, List.mem_singleton, List.not_mem_nil, or_false] at hc
          rcases hc with rfl | rfl <;> rfl
        · simp only [gnu_ifunc_resolve, hsym, haddr, hname, hver, if_true, if_false,
            World.call, World.eprint]
          simp
      cases hopen : h.sys_open dli.dli_fname with
      | error errno =>
        refine ⟨.ret 78 none, ["Error: can not open ELF file '" ++ dli.dli_fname ++ "': "
                ++ h.strerror errno ++ "\n"], fun w =>
          ⟨[.dladdr (h.dlsym name), .elf_version, .sys_open dli.dli_fname], ?_,
            Or.inr ⟨⟨78, none, rfl, by decide, fun hl => absurd hl (by decide)⟩, ?_⟩⟩⟩
        · intro c hc
          simp only [List.mem_cons, List.mem_singleton, List.not_mem_nil, or_false] at hc
          rcases hc with rfl | rfl | rfl <;> rfl
        · simp only [gnu_ifunc_resolve, hsym, haddr, hname, hver, hopen, if_false,
            World.call, World.eprint]
          simp
      | ok file =>
        cases file with
        | none =>
          refine ⟨.ret 84 none, ["Error: can not open ELF file '" ++ dli.dli_fname ++ "'\n"],
            fun w =>
            ⟨[.dladdr (h.dlsym name), .elf_version, .sys_open dli.dli_fname,
              .elf_begin (lowest_free w.fds), .sys_close (lowest_free w.fds)], ?_,
              Or.inr ⟨⟨84, none, rfl, by decide, fun _ =>
                ⟨[.dladdr (h.dlsym name), .elf_version, .sys_open dli.dli_fname], rfl⟩⟩, ?_⟩⟩⟩
          · intro c hc
            simp only [List.mem_cons, List.mem_singleton, List.not_mem_nil, or_false] at hc
            rcases hc with rfl | rfl | rfl | rfl | rfl <;> rfl
          · simp only [gnu_ifunc_resolve, hsym, haddr, hname, hver, hopen, if_false,
              World.call, World.eprint]
            simp
        | some elf =>
          have hr : ReachesScanner h name dli elf := ⟨hsym, haddr, hname, hver, hopen⟩
          obtain ⟨scn, hd, cs1, hcs1, hrun1⟩ := find_symtab_frame elf.scns h.stack_shdr
          have hcs1d : ∀ c ∈ cs1, c.is_dlsym = false := by
            intro c hc
            rcases hcs1 c hc with rfl | rfl <;> rfl
          -- the scan does not depend on the descriptor
          have hfd : ∀ fd fd0 : Nat, ∀ w : World,
              (find_symbol h elf fd scn hd
                (ptrdiff_sub (to_ptrdiff (h.dlsym name)) (to_ptrdiff dli.dli_fbase)) w).1
              = (find_symbol h elf fd0 scn hd
                (ptrdiff_sub (to_ptrdiff (h.dlsym name)) (to_ptrdiff dli.dli_fbase)) w).1 := by
            intro fd fd0 w
            simp only [find_symbol]
            cases elf_getdata scn with
            | none => rfl
            | some sec_data =>
              by_cases hent : hd.sh_entsize = 0
              · simp [hent]
              · simp only [hent, if_false]
                cases scan_loop h.stack_sym sec_data
                  (ptrdiff_sub (to_ptrdiff (h.dlsym name)) (to_ptrdiff dli.dli_fbase))
                  (to_int (hd.sh_size / hd.sh_entsize)).toNat 0 (w.call .elf_getdata) with
                | mk r w1 => cases r <;> rfl
          obtain ⟨r, cs2, hcs2, hrun2⟩ := find_symbol_frame h elf 0 scn hd
            (ptrdiff_sub (to_ptrdiff (h.dlsym name)) (to_ptrdiff dli.dli_fbase))
          have hr1 : ∀ w : World, (find_symbol h elf 0 scn hd
              (ptrdiff_sub (to_ptrdiff (h.dlsym name)) (to_ptrdiff dli.dli_fbase)) w).1 = r := by
            intro w
            rcases hrun2 with ⟨_, hrun⟩ | ⟨_, hrun⟩ <;> rw [hrun]
          refine ⟨r, [], fun w => ?_⟩
          obtain ⟨r', cs3, hcs3, hrun3⟩ := find_symbol_frame h elf (lowest_free w.fds) scn hd
            (ptrdiff_sub (to_ptrdiff (h.dlsym name)) (to_ptrdiff dli.dli_fbase))
          have hrr : r' = r := by
            rw [← hr1 blank, ← hfd (lowest_free w.fds) 0 blank]
            rcases hrun3 with ⟨_, hrun⟩ | ⟨_, hrun⟩ <;> rw [hrun]
          subst hrr
          refine ⟨[.dladdr (h.dlsym name), .elf_version, .sys_open dli.dli_fname,
            .elf_begin (lowest_free w.fds)] ++ cs1 ++ cs3, ?_, ?_⟩
          · intro c hc
            simp only [List.mem_append, List.mem_cons, List.mem_singleton, List.not_mem_nil,
              or_false] at hc
            rcases hc with ((rfl | rfl | rfl | rfl) | hc) | hc
            · rfl
            · rfl
            · rfl
            · rfl
            · exact hcs1d c hc
            · exact hcs3 c hc
          · rw [resolve_at_scanner h name w dli elf hr, hrun1]
            rcases hrun3 with ⟨hkind, hrun⟩ | ⟨hkind, hrun⟩
            · left
              refine ⟨hkind, ?_⟩
              rw [hrun]
              simp [at_scanner, entry_calls]
            · right
              refine ⟨⟨114, none, hkind, by decide, fun hl => absurd hl (by decide)⟩, ?_⟩
              rw [hrun]
              simp [at_scanner, entry_calls]

theorem gelf_getsym_not_mem_scn_calls (i : Nat) : ∀ n : Nat, Call.gelf_getsym i ∉ scn_calls n
  | 0 => by simp [scn_calls]
  | n + 1 => by simp [scn_calls, gelf_getsym_not_mem_scn_calls i n]

theorem resolve_without_symtab (h : Host) (name : String) (w : World) (dli : Dl_info)
    (elf : Elf) (hr : ReachesScanner h name dli elf)
    (hno : ∀ s ∈ elf.scns, ∀ hd, s.shdr = some hd → hd.sh_type ≠ SHT_SYMTAB) :
    gnu_ifunc_resolve h name w =
      (.ret 114 none,
        { w with
          calls := w.calls ++
            (entry_calls name (h.dlsym name) dli.dli_fname (lowest_free w.fds)
              ++ scn_calls elf.scns.length
              ++ [.elf_nextscn, .elf_getdata, .elf_end (lowest_free w.fds),
                  .sys_close (lowest_free w.fds)]) }) := by
  rw [resolve_at_scanner h name w dli elf hr]
  obtain ⟨last, hlast⟩ := find_symtab_none elf.scns h.stack_shdr
    (at_scanner w name (h.dlsym name) dli.dli_fname) hno
  rw [hlast]
  simp [find_symbol, elf_getdata, release, World.call, at_scanner]

theorem resolve_scan_no_match (h : Host) (name : String) (w : World) (dli : Dl_info)
    (elf : Elf) (pre post : List Elf_Scn) (scn : Elf_Scn) (hd : GElf_Shdr)
    (data : List GElf_Sym) (hr : ReachesScanner h name dli elf)
    (hs : SymtabAt elf pre scn post hd data) (hent : hd.sh_entsize ≠ 0)
    (hint : hd.sh_size / hd.sh_entsize < 2147483648)
    (hno : ∀ j, j < hd.sh_size / hd.sh_entsize →
      to_ptrdiff (sym_at h.stack_sym data j).st_value ≠
        ptrdiff_sub (to_ptrdiff (h.dlsym name)) (to_ptrdiff dli.dli_fbase)) :
    gnu_ifunc_resolve h name w =
      (.ret 114 none,
        { w with
          calls := w.calls ++
            (entry_calls name (h.dlsym name) dli.dli_fname (lowest_free w.fds)
              ++ scn_calls (pre.length + 1) ++ [.elf_getdata]
              ++ sym_calls (hd.sh_size / hd.sh_entsize)
              ++ [.elf_end (lowest_free w.fds), .sys_close (lowest_free w.fds)]) }) := by
  rw [resolve_at_scanner h name w dli elf hr, hs.hscns,
    find_symtab_found scn hd post hs.hshdr hs.htype pre _ _ hs.hpre]
  have hn : (to_int (hd.sh_size / hd.sh_entsize)).toNat = hd.sh_size / hd.sh_entsize := by
    rw [to_int_of_lt _ hint]; exact Int.toNat_natCast _
  have hno0 : ∀ j, j < hd.sh_size / hd.sh_entsize →
      to_ptrdiff (sym_at h.stack_sym data (0 + j)).st_value ≠
        ptrdiff_sub (to_ptrdiff (h.dlsym name)) (to_ptrdiff dli.dli_fbase) := by
    intro j hj; rw [Nat.zero_add]; exact hno j hj
  simp only [find_symbol, elf_getdata, hs.hdata, hent, if_false, hn]
  rw [scan_loop_no_match _ _ _ _ 0 _ hno0]
  simp [release, World.call, at_scanner, sym_calls, List.append_assoc]

theorem resolve_scan_match (h : Host) (name : String) (w : World) (dli : Dl_info)
    (elf : Elf) (pre post : List Elf_Scn) (scn : Elf_Scn) (hd : GElf_Shdr)
    (data : List GElf_Sym) (hr : ReachesScanner h name dli elf)
    (hs : SymtabAt elf pre scn post hd data) (hent : hd.sh_entsize ≠ 0)
    (hint : hd.sh_size / hd.sh_entsize < 2147483648) (m : Nat)
    (hm : m < hd.sh_size / hd.sh_entsize)
    (hno : ∀ j, j < m →
      to_ptrdiff (sym_at h.stack_sym data j).st_value ≠
        ptrdiff_sub (to_ptrdiff (h.dlsym name)) (to_ptrdiff dli.dli_fbase))
    (hhit : to_ptrdiff (sym_at h.stack_sym data m).st_value =
        ptrdiff_sub (to_ptrdiff (h.dlsym name)) (to_ptrdiff dli.dli_fbase)) :
    gnu_ifunc_resolve h name w =
      (.ret 107 (elf.strptr hd.sh_link (sym_at h.stack_sym data m).st_name),
        { w with
          fds := lowest_free w.fds :: w.fds,
          elfs := lowest_free w.fds :: w.elfs,
          calls := w.calls ++
            (entry_calls name (h.dlsym name) dli.dli_fname (lowest_free w.fds)
              ++ scn_calls (pre.length + 1) ++ [.elf_getdata]
              ++ sym_calls (m + 1)
              ++ [.elf_strptr hd.sh_link (sym_at h.stack_sym data m).st_name]) }) := by
  rw [resolve_at_scanner h name w dli elf hr, hs.hscns,
    find_symtab_found scn hd post hs.hshdr hs.htype pre _ _ hs.hpre]
  have hn : (to_int (hd.sh_size / hd.sh_entsize)).toNat = hd.sh_size / hd.sh_entsize := by
    rw [to_int_of_lt _ hint]; exact Int.toNat_natCast _
  have hno0 : ∀ j, j < m →
      to_ptrdiff (sym_at h.stack_sym data (0 + j)).st_value ≠
        ptrdiff_sub (to_ptrdiff (h.dlsym name)) (to_ptrdiff dli.dli_fbase) := by
    intro j hj; rw [Nat.zero_add]; exact hno j hj
  have hhit0 : to_ptrdiff (sym_at h.stack_sym data (0 + m)).st_value =
      ptrdiff_sub (to_ptrdiff (h.dlsym name)) (to_ptrdiff dli.dli_fbase) := by
    rw [Nat.zero_add]; exact hhit
  simp only [find_symbol, elf_getdata, hs.hdata, hent, if_false, hn]
  rw [scan_loop_first_match _ _ _ _ 0 _ m hm hno0 hhit0]
  simp [World.call, at_scanner, sym_calls, List.append_assoc]

theorem examined_scn_calls : ∀ n : Nat, examined (scn_calls n) = []
  | 0 => rfl
  | n + 1 => by
    have ih := examined_scn_calls n
    simp only [examined] at ih
    simp [scn_calls, examined, ih]

theorem examined_sym_calls (n : Nat) : examined (sym_calls n) = List.range n := by
  simp [examined, sym_calls, List.filterMap_map, Function.comp_def]

theorem examined_append (a b : List Call) : examined (a ++ b) = examined a ++ examined b := by
  simp [examined]

theorem sym_at_of_getElem (ss : Nat → GElf_Sym) (data : List GElf_Sym) (i : Nat) (e : GElf_Sym)
    (he : data[i]? = some e) : sym_at ss data i = e := by
  simp [sym_at, gelf_getsym, he]

/-! ## The scanner -/

/-- C5: when the module file opens and parses but no section header reads as
    `SHT_SYMTAB` (no section at all, or only other types such as the dynamic
    symbol table), the call returns NULL at line 114, hands no index to
    `gelf_getsym`, and leaves the descriptors and ELF handles as they were;
    this holds for every content of the section headers and of the
    uninitialised `shdr`. -/
theorem missing_symtab_no_match (h : Host) (name : String) (w : World) (dli : Dl_info)
    (elf : Elf) (hr : ReachesScanner h name dli elf)
    (hno : ∀ s ∈ elf.scns, ∀ hd, s.shdr = some hd → hd.sh_type ≠ SHT_SYMTAB) :
    (gnu_ifunc_resolve h name w).1 = .ret 114 none
      ∧ examined ((gnu_ifunc_resolve h name w).2.calls.drop w.calls.length) = []
      ∧ (∀ i, Call.gelf_getsym i ∉ (gnu_ifunc_resolve h name w).2.calls.drop w.calls.length)
      ∧ (gnu_ifunc_resolve h name w).2.fds = w.fds
      ∧ (gnu_ifunc_resolve h name w).2.elfs = w.elfs := by
  rw [resolve_without_symtab h name w dli elf hr hno]
  refine ⟨rfl, ?_, ?_, rfl, rfl⟩
  · simp [examined_append, examined_scn_calls]
    simp [examined, entry_calls]
  · intro i
    simp [entry_calls, gelf_getsym_not_mem_scn_calls]

theorem missing_symtab_no_match_witness :
    (gnu_ifunc_resolve (demo_host 1056768 1048576 none 1 (.ok (some stripped_elf)))
        "memcpy" world0).1 = .ret 114 none
      ∧ examined ((gnu_ifunc_resolve (demo_host 1056768 1048576 none 1 (.ok (some stripped_elf)))
          "memcpy" world0).2.calls.drop world0.calls.length) = []
      ∧ (∀ i, Call.gelf_getsym i ∉
          (gnu_ifunc_resolve (demo_host 1056768 1048576 none 1 (.ok (some stripped_elf)))
            "memcpy" world0).2.calls.drop world0.calls.length)
      ∧ (gnu_ifunc_resolve (demo_host 1056768 1048576 none 1 (.ok (some stripped_elf)))
          "memcpy" world0).2.fds = world0.fds
      ∧ (gnu_ifunc_resolve (demo_host 1056768 1048576 none 1 (.ok (some stripped_elf)))
          "memcpy" world0).2.elfs = world0.elfs :=
  missing_symtab_no_match (demo_host 1056768 1048576 none 1 (.ok (some stripped_elf)))
    "memcpy" world0 { dli_fname := "/lib/libc.so.6", dli_fbase := 1048576, dli_sname := none }
    stripped_elf
    { hsym := by decide, haddr := rfl, hname := rfl, hver := by decide, hopen := rfl }
    (by
      intro s hs hd hhd
      simp only [stripped_elf, List.mem_singleton] at hs
      subst hs
      simp only [Option.some.injEq] at hhd
      subst hhd
      decide)

theorem scan_result_of_offset (h : Host) (name : String) (w : World) (dli : Dl_info)
    (elf : Elf) (pre post : List Elf_Scn) (scn : Elf_Scn) (hd : GElf_Shdr)
    (data : List GElf_Sym) (hr : ReachesScanner h name dli elf)
    (hs : SymtabAt elf pre scn post hd data) (hwf : WellFormedSymtab hd data) (off : Nat)
    (hoff : off < 18446744073709551616)
    (hrel : ptrdiff_sub (to_ptrdiff (h.dlsym name)) (to_ptrdiff dli.dli_fbase) = to_ptrdiff off) :
    (∃ (i : Nat) (e : GElf_Sym), data[i]? = some e ∧ e.st_value = off
        ∧ (∀ (j : Nat) (e0 : GElf_Sym), j < i → data[j]? = some e0 → e0.st_value ≠ off)
        ∧ (gnu_ifunc_resolve h name w).1 = .ret 107 (elf.strptr hd.sh_link e.st_name))
      ∨ ((∀ e ∈ data, e.st_value ≠ off)
        ∧ (gnu_ifunc_resolve h name w).1 = .ret 114 none) := by
  have hq : hd.sh_size / hd.sh_entsize < 2147483648 := by rw [hwf.hcount]; exact hwf.hint
  -- an entry read inside the table matches exactly when its value is the offset
  have hiff : ∀ j e, data[j]? = some e →
      (to_ptrdiff (sym_at h.stack_sym data j).st_value =
          ptrdiff_sub (to_ptrdiff (h.dlsym name)) (to_ptrdiff dli.dli_fbase)
        ↔ e.st_value = off) := by
    intro j e he
    rw [sym_at_of_getElem _ _ _ _ he, hrel]
    exact to_ptrdiff_eq_iff _ _ (hwf.hval e (List.getElem?_mem he)) hoff
  by_cases hex : ∃ i : Nat, ∃ e : GElf_Sym,
      data[i]? = some e ∧ e.st_value = off
  · classical
    left
    obtain ⟨e, he, hval⟩ := Nat.find_spec hex
    have hlt : Nat.find hex < data.length := by
      by_contra hge
      rw [List.getElem?_eq_none (Nat.le_of_not_lt hge)] at he
      exact Option.noConfusion he
    have hmin : ∀ (j : Nat) (e0 : GElf_Sym), j < Nat.find hex → data[j]? = some e0 →
        e0.st_value ≠ off := by
      intro j e0 hj he0 hv
      exact Nat.find_min hex hj ⟨e0, he0, hv⟩
    refine ⟨Nat.find hex, e, he, hval, hmin, ?_⟩
    rw [resolve_scan_match h name w dli elf pre post scn hd data hr hs hwf.hent hq
      (Nat.find hex) (by rw [hwf.hcount]; exact hlt)
      (by
        intro j hj
        have hjl : j < data.length := Nat.lt_trans hj hlt
        have hej : data[j]? = some data[j] := List.getElem?_eq_getElem hjl
        rw [Ne, hiff j _ hej]
        exact hmin j _ hj hej)
      ((hiff _ e he).mpr hval)]
    rw [sym_at_of_getElem _ _ _ _ he]
  · right
    have hall : ∀ e ∈ data, e.st_value ≠ off := by
      intro e hmem hv
      obtain ⟨i, hget⟩ := List.getElem?_of_mem hmem
      exact hex ⟨i, e, hget, hv⟩
    refine ⟨hall, ?_⟩
    rw [resolve_scan_no_match h name w dli elf pre post scn hd data hr hs hwf.hent hq
      (by
        intro j hj
        have hjl : j < data.length := by rw [← hwf.hcount]; exact hj
        have hej : data[j]? = some data[j] := List.getElem?_eq_getElem hjl
        rw [Ne, hiff j _ hej]
        exact hall _ (List.getElem_mem hjl))]


/-- C1, as stated, fails for a load base above the target address: with
    base 2097152 and target 1048576 no entry has the value
    `target_address - base` (it is negative), yet the scan returns the name of
    the entry whose value is the 64-bit image of that difference. -/
theorem first_match_fails_below_base :
    (∀ e ∈ wrapped_syms, (e.st_value : Int) ≠ (1048576 : Int) - 2097152)
      ∧ (gnu_ifunc_resolve
          (demo_host 1048576 2097152 none 1 (.ok (some (symtab_elf (demo_symtab_shdr 3) wrapped_syms))))
          "strcmp" world0).1 = .ret 107 (some "__strcmp_avx2") := by
  decide

/-- C1, amended: for a load base not above the target address (both 64-bit),
    when the module opens and parses and the first `SHT_SYMTAB` section holds
    a well-formed table, the call returns, at line 107, the string-table name
    (looked up through `sh_link`) of the entry with the least index whose
    `st_value` equals `target_address - base`, and returns NULL at line 114
    when no entry has exactly that value. -/
theorem symtab_scan_first_match (h : Host) (name : String) (w : World) (dli : Dl_info)
    (elf : Elf) (pre post : List Elf_Scn) (scn : Elf_Scn) (hd : GElf_Shdr)
    (data : List GElf_Sym) (hr : ReachesScanner h name dli elf)
    (hs : SymtabAt elf pre scn post hd data) (hwf : WellFormedSymtab hd data)
    (haddr : h.dlsym name < 18446744073709551616) (hbase : dli.dli_fbase ≤ h.dlsym name) :
    (∃ (i : Nat) (e : GElf_Sym), data[i]? = some e ∧ e.st_value = h.dlsym name - dli.dli_fbase
        ∧ (∀ (j : Nat) (e0 : GElf_Sym), j < i → data[j]? = some e0 →
            e0.st_value ≠ h.dlsym name - dli.dli_fbase)
        ∧ (gnu_ifunc_resolve h name w).1 = .ret 107 (elf.strptr hd.sh_link e.st_name))
      ∨ ((∀ e ∈ data, e.st_value ≠ h.dlsym name - dli.dli_fbase)
        ∧ (gnu_ifunc_resolve h name w).1 = .ret 114 none) := by
  exact scan_result_of_offset h name w dli elf pre post scn hd data hr hs hwf
    (h.dlsym name - dli.dli_fbase) (by omega)
    (ptrdiff_sub_of_le (h.dlsym name) dli.dli_fbase haddr hbase)

theorem demo_reaches_scanner (addr base : Nat) (haddr : addr ≠ 0) (elf : Elf) :
    ReachesScanner (demo_host addr base none 1 (.ok (some elf))) "memcpy"
      { dli_fname := "/lib/libc.so.6", dli_fbase := base, dli_sname := none } elf :=
  { hsym := haddr, haddr := rfl, hname := rfl, hver := Nat.one_ne_zero, hopen := rfl }

theorem demo_symtab_at :
    SymtabAt demo_elf
      [{ shdr := some { sh_type := SHT_DYNSYM, sh_size := 48, sh_entsize := 0, sh_link := 4 },
         data := some [{ st_name := 1, st_value := 8192 }] },
       { shdr := none, data := none }]
      { shdr := some (demo_symtab_shdr 4), data := some demo_syms } []
      (demo_symtab_shdr 4) demo_syms :=
  { hscns := rfl,
    hpre := by
      intro s hs hd0 h0
      simp only [List.mem_cons, List.mem_singleton, List.not_mem_nil, or_false] at hs
      rcases hs with rfl | rfl
      · simp only [Option.some.injEq] at h0
        subst h0
        decide
      · exact Option.noConfusion h0,
    hshdr := rfl, htype := rfl, hdata := rfl }

theorem symtab_elf_symtab_at (hd : GElf_Shdr) (data : List GElf_Sym)
    (hty : hd.sh_type = SHT_SYMTAB) :
    SymtabAt (symtab_elf hd data) [] { shdr := some hd, data := some data } [] hd data :=
  { hscns := rfl, hpre := fun _ hs => absurd hs (List.not_mem_nil _),
    hshdr := rfl, htype := hty, hdata := rfl }

theorem demo_well_formed : WellFormedSymtab (demo_symtab_shdr 4) demo_syms :=
  { hent := by decide, hcount := by decide, hint := by decide, hval := by decide }

theorem wrapped_well_formed : WellFormedSymtab (demo_symtab_shdr 3) wrapped_syms :=
  { hent := by decide, hcount := by decide, hint := by decide, hval := by decide }

theorem symtab_scan_first_match_witness :
    (∃ (i : Nat) (e : GElf_Sym), demo_syms[i]? = some e ∧ e.st_value = 1056768 - 1048576
        ∧ (∀ (j : Nat) (e0 : GElf_Sym), j < i → demo_syms[j]? = some e0 →
            e0.st_value ≠ 1056768 - 1048576)
        ∧ (gnu_ifunc_resolve (demo_host 1056768 1048576 none 1 (.ok (some demo_elf)))
            "memcpy" world0).1 = .ret 107 (demo_elf.strptr (demo_symtab_shdr 4).sh_link e.st_name))
      ∨ ((∀ e ∈ demo_syms, e.st_value ≠ 1056768 - 1048576)
        ∧ (gnu_ifunc_resolve (demo_host 1056768 1048576 none 1 (.ok (some demo_elf)))
            "memcpy" world0).1 = .ret 114 none) :=
  symtab_scan_first_match (demo_host 1056768 1048576 none 1 (.ok (some demo_elf))) "memcpy"
    world0 { dli_fname := "/lib/libc.so.6", dli_fbase := 1048576, dli_sname := none } demo_elf
    _ [] _ (demo_symtab_shdr 4) demo_syms
    (demo_reaches_scanner 1056768 1048576 (by decide) demo_elf) demo_symtab_at demo_well_formed
    (by decide) (by decide)

/-- C6, as stated, fails: with base 1052672 above the target 1048576 the
    scan does yield a match, the entry whose value 18446744073709547520 is
    the 64-bit image of the signed difference -4096. -/
theorem negative_offset_matches :
    (1052672 : Nat) > 1048576
      ∧ { st_name := 1, st_value := 18446744073709547520 } ∈ wrapped_syms
      ∧ (gnu_ifunc_resolve
          (demo_host 1048576 1052672 none 1 (.ok (some (symtab_elf (demo_symtab_shdr 3) wrapped_syms))))
          "memcpy" world0).1 = .ret 107 (some "__memmove_avx_unaligned_erms") := by
  decide

/-- C6, amended: for a load base above the target address (both 64-bit) and
    a well-formed symbol table, the scan yields no match (NULL at line 114)
    exactly when no entry has the value `2^64 - (base - target_address)`, the
    64-bit two's-complement image of the signed difference. -/
theorem negative_offset_no_match_iff (h : Host) (name : String) (w : World) (dli : Dl_info)
    (elf : Elf) (pre post : List Elf_Scn) (scn : Elf_Scn) (hd : GElf_Shdr)
    (data : List GElf_Sym) (hr : ReachesScanner h name dli elf)
    (hs : SymtabAt elf pre scn post hd data) (hwf : WellFormedSymtab hd data)
    (hbase : dli.dli_fbase < 18446744073709551616) (hneg : h.dlsym name < dli.dli_fbase) :
    (gnu_ifunc_resolve h name w).1 = .ret 114 none
      ↔ ∀ e ∈ data, e.st_value ≠ 18446744073709551616 + h.dlsym name - dli.dli_fbase := by
  have hres := scan_result_of_offset h name w dli elf pre post scn hd data hr hs hwf
    (18446744073709551616 + h.dlsym name - dli.dli_fbase) (by omega)
    (ptrdiff_sub_of_lt (h.dlsym name) dli.dli_fbase hbase hneg)
  constructor
  · intro hnull
    rcases hres with ⟨i, e, _, _, _, hret⟩ | ⟨hall, _⟩
    · rw [hret] at hnull
      injection hnull with hline
      exact absurd hline (by decide)
    · exact hall
  · intro hall
    rcases hres with ⟨i, e, he, hv, _, _⟩ | ⟨_, hret⟩
    · exact absurd hv (hall e (List.getElem?_mem he))
    · exact hret

theorem negative_offset_no_match_iff_witness :
    (gnu_ifunc_resolve (demo_host 1048576 1052672 none 1 (.ok (some demo_elf)))
        "memcpy" world0).1 = .ret 114 none
      ↔ ∀ e ∈ demo_syms, e.st_value ≠ 18446744073709551616 + 1048576 - 1052672 :=
  negative_offset_no_match_iff (demo_host 1048576 1052672 none 1 (.ok (some demo_elf))) "memcpy"
    world0 { dli_fname := "/lib/libc.so.6", dli_fbase := 1052672, dli_sname := none } demo_elf
    _ [] _ (demo_symtab_shdr 4) demo_syms
    (demo_reaches_scanner 1048576 1052672 (by decide) demo_elf) demo_symtab_at demo_well_formed
    (by decide) (by decide)

/-- C9, as stated, fails on two headers: with `sh_entsize = 0` the division
    is undefined and the call does not return; with `sh_size = 2^32` and
    `sh_entsize = 1` the quotient 4294967296 becomes 0 when stored in the
    `int`, so no entry is examined although nothing matched. -/
theorem entry_count_undefined_or_truncated :
    (gnu_ifunc_resolve
        (demo_host 1056768 1048576 none 1 (.ok (some (symtab_elf
          { sh_type := SHT_SYMTAB, sh_size := 96, sh_entsize := 0, sh_link := 5 } demo_syms))))
        "memcpy" world0).1 = .fault
      ∧ (4294967296 : Nat) / 1 = 4294967296
      ∧ examined (gnu_ifunc_resolve
          (demo_host 1052673 1048576 none 1 (.ok (some (symtab_elf
            { sh_type := SHT_SYMTAB, sh_size := 4294967296, sh_entsize := 1, sh_link := 5 }
            demo_syms))))
          "memcpy" world0).2.calls = []
      ∧ (gnu_ifunc_resolve
          (demo_host 1052673 1048576 none 1 (.ok (some (symtab_elf
            { sh_type := SHT_SYMTAB, sh_size := 4294967296, sh_entsize := 1, sh_link := 5 }
            demo_syms))))
          "memcpy" world0).1 = .ret 114 none := by
  decide

/-- C9, amended: for a symbol-table header with `sh_entsize` not zero and
    `sh_size / sh_entsize` below 2^31, when none of the values read matches,
    the indices handed to `gelf_getsym` are exactly 0, 1, ..., count-1 in
    increasing order, where count is `sh_size / sh_entsize`; the call then
    returns NULL at line 114. -/
theorem entry_count_and_order (h : Host) (name : String) (w : World) (dli : Dl_info)
    (elf : Elf) (pre post : List Elf_Scn) (scn : Elf_Scn) (hd : GElf_Shdr)
    (data : List GElf_Sym) (hr : ReachesScanner h name dli elf)
    (hs : SymtabAt elf pre scn post hd data) (hent : hd.sh_entsize ≠ 0)
    (hint : hd.sh_size / hd.sh_entsize < 2147483648)
    (hno : ∀ j, j < hd.sh_size / hd.sh_entsize →
      to_ptrdiff (sym_at h.stack_sym data j).st_value ≠
        ptrdiff_sub (to_ptrdiff (h.dlsym name)) (to_ptrdiff dli.dli_fbase)) :
    examined ((gnu_ifunc_resolve h name w).2.calls.drop w.calls.length)
        = List.range (hd.sh_size / hd.sh_entsize)
      ∧ (examined ((gnu_ifunc_resolve h name w).2.calls.drop w.calls.length)).length
        = hd.sh_size / hd.sh_entsize
      ∧ (gnu_ifunc_resolve h name w).1 = .ret 114 none := by
  rw [resolve_scan_no_match h name w dli elf pre post scn hd data hr hs hent hint hno]
  have hex : examined
      (entry_calls name (h.dlsym name) dli.dli_fname (lowest_free w.fds)
        ++ scn_calls (pre.length + 1) ++ [.elf_getdata]
        ++ sym_calls (hd.sh_size / hd.sh_entsize)
        ++ [.elf_end (lowest_free w.fds), .sys_close (lowest_free w.fds)])
      = List.range (hd.sh_size / hd.sh_entsize) := by
    simp only [examined_append, examined_scn_calls, examined_sym_calls]
    simp [examined, entry_calls]
  simp only [List.drop_left, hex, List.length_range, and_self]

theorem entry_count_and_order_witness :
    examined ((gnu_ifunc_resolve (demo_host 1052673 1048576 none 1 (.ok (some demo_elf)))
          "memcpy" world0).2.calls.drop world0.calls.length)
        = List.range ((demo_symtab_shdr 4).sh_size / (demo_symtab_shdr 4).sh_entsize)
      ∧ (examined ((gnu_ifunc_resolve (demo_host 1052673 1048576 none 1 (.ok (some demo_elf)))
          "memcpy" world0).2.calls.drop world0.calls.length)).length
        = (demo_symtab_shdr 4).sh_size / (demo_symtab_shdr 4).sh_entsize
      ∧ (gnu_ifunc_resolve (demo_host 1052673 1048576 none 1 (.ok (some demo_elf)))
          "memcpy" world0).1 = .ret 114 none :=
  entry_count_and_order (demo_host 1052673 1048576 none 1 (.ok (some demo_elf))) "memcpy"
    world0 { dli_fname := "/lib/libc.so.6", dli_fbase := 1048576, dli_sname := none } demo_elf
    _ [] _ (demo_symtab_shdr 4) demo_syms
    (demo_reaches_scanner 1052673 1048576 (by decide) demo_elf) demo_symtab_at
    (by decide) (by decide) (by decide)

/-! ## The resolver steps before the scanner -/

/-- C3: when `dlsym` yields NULL the call returns NULL at line 49 after
    writing the symbol-not-found diagnostic; the only calls made are `dlsym`
    and `dlerror`, so no introspection, no file open and no ELF handle
    happen, and the open descriptors and ELF handles are the ones from before
    the call. -/
theorem symbol_not_found_fail_fast (h : Host) (name : String) (w : World)
    (hnull : h.dlsym name = 0) :
    gnu_ifunc_resolve h name w =
        (.ret 49 none,
          { w with
            calls := w.calls ++ [.dlsym name, .dlerror],
            err := w.err ++ ["Error: can not obtain address of a symbol '" ++ name ++ "': "
              ++ h.dlerror (.dlsym name) ++ "\n"] })
      ∧ (gnu_ifunc_resolve h name w).2.fds = w.fds
      ∧ (gnu_ifunc_resolve h name w).2.elfs = w.elfs := by
  simp [gnu_ifunc_resolve, hnull, World.call, World.eprint]

theorem symbol_not_found_fail_fast_witness :
    empty_host.dlsym "this_symbol_does_not_exist" = 0
      ∧ gnu_ifunc_resolve empty_host "this_symbol_does_not_exist" world0 =
        (.ret 49 none,
          { world0 with
            calls := world0.calls ++ [.dlsym "this_symbol_does_not_exist", .dlerror],
            err := world0.err ++
              ["Error: can not obtain address of a symbol '" ++ "this_symbol_does_not_exist"
                ++ "': " ++ empty_host.dlerror (.dlsym "this_symbol_does_not_exist") ++ "\n"] })
      ∧ (gnu_ifunc_resolve empty_host "this_symbol_does_not_exist" world0).2.fds = world0.fds
      ∧ (gnu_ifunc_resolve empty_host "this_symbol_does_not_exist" world0).2.elfs = world0.elfs :=
  ⟨rfl, symbol_not_found_fail_fast empty_host "this_symbol_does_not_exist" world0 rfl⟩

/-- C2: when `dlsym` succeeds and `dladdr` succeeds with a non-null
    `dli_sname`, the call returns exactly that name at line 62, and the only
    calls made are `dlsym` and `dladdr`: no `elf_version`, no `open`, no
    section enumeration; nothing is written and no handle is acquired. -/
theorem direct_name_shortcut (h : Host) (name : String) (w : World) (dli : Dl_info)
    (sname : String) (hsym : h.dlsym name ≠ 0) (haddr : h.dladdr (h.dlsym name) = some dli)
    (hname : dli.dli_sname = some sname) :
    gnu_ifunc_resolve h name w =
      (.ret 62 (some sname),
        { w with calls := w.calls ++ [.dlsym name, .dladdr (h.dlsym name)] }) := by
  simp [gnu_ifunc_resolve, hsym, haddr, hname, World.call]

theorem direct_name_shortcut_witness :
    (demo_host 1052673 1048576 (some "__libc_malloc") 1 (.ok (some demo_elf))).dlsym "malloc" ≠ 0
      ∧ gnu_ifunc_resolve (demo_host 1052673 1048576 (some "__libc_malloc") 1 (.ok (some demo_elf)))
          "malloc" world0 =
        (.ret 62 (some "__libc_malloc"),
          { world0 with calls := world0.calls ++ [.dlsym "malloc", .dladdr 1052673] }) :=
  ⟨by decide,
   direct_name_shortcut (demo_host 1052673 1048576 (some "__libc_malloc") 1 (.ok (some demo_elf)))
     "malloc" world0
     { dli_fname := "/lib/libc.so.6", dli_fbase := 1048576, dli_sname := some "__libc_malloc" }
     "__libc_malloc" (by decide) rfl rfl⟩

/-- C8, as stated, fails: on a host where the module file cannot be opened
    (errno 13) and `elf_version` yields `EV_NONE`, the query reaches the
    scanner and fails with the version diagnostic at line 71; the file-open
    error is not reported and `open` is not even called. -/
theorem file_open_error_preempted_by_version :
    (demo_host 1052673 1048576 none EV_NONE (.error 13)).dlsym "memcpy" ≠ 0
      ∧ (demo_host 1052673 1048576 none EV_NONE (.error 13)).dladdr 1052673 =
          some { dli_fname := "/lib/libc.so.6", dli_fbase := 1048576, dli_sname := none }
      ∧ (demo_host 1052673 1048576 none EV_NONE (.error 13)).sys_open "/lib/libc.so.6" = .error 13
      ∧ gnu_ifunc_resolve (demo_host 1052673 1048576 none EV_NONE (.error 13)) "memcpy" world0 =
          (.ret 71 none,
            { world0 with
              calls := [.dlsym "memcpy", .dladdr 1052673, .elf_version],
              err := ["Error: ELF library too old\n"] })
      ∧ "Error: can not open ELF file '/lib/libc.so.6': Permission denied\n" ∉
          (gnu_ifunc_resolve (demo_host 1052673 1048576 none EV_NONE (.error 13))
            "memcpy" world0).2.err := by
  refine ⟨by decide, rfl, rfl, by decide, by decide⟩

/-- C8, amended: when the query reaches the scanner, `elf_version` succeeds
    and the module file cannot be opened with errno `e`, the call returns NULL
    at line 78 with the file-open diagnostic carrying `strerror (e)`; the
    calls made are `dlsym`, `dladdr`, `elf_version` and `open`, so no
    `elf_begin` and no section or symbol is read, and no handle is acquired. -/
theorem file_open_error_after_version (h : Host) (name : String) (w : World) (dli : Dl_info)
    (e : Nat) (hsym : h.dlsym name ≠ 0) (haddr : h.dladdr (h.dlsym name) = some dli)
    (hname : dli.dli_sname = none) (hver : h.elf_version ≠ EV_NONE)
    (hopen : h.sys_open dli.dli_fname = .error e) :
    gnu_ifunc_resolve h name w =
      (.ret 78 none,
        { w with
          calls := w.calls ++
            [.dlsym name, .dladdr (h.dlsym name), .elf_version, .sys_open dli.dli_fname],
          err := w.err ++ ["Error: can not open ELF file '" ++ dli.dli_fname ++ "': "
            ++ h.strerror e ++ "\n"] }) := by
  simp [gnu_ifunc_resolve, hsym, haddr, hname, hver, hopen, World.call, World.eprint]

theorem file_open_error_after_version_witness :
    (demo_host 1052673 1048576 none 1 (.error 2)).elf_version ≠ EV_NONE
      ∧ gnu_ifunc_resolve (demo_host 1052673 1048576 none 1 (.error 2)) "memcpy" world0 =
        (.ret 78 none,
          { world0 with
            calls := world0.calls ++
              [.dlsym "memcpy", .dladdr 1052673, .elf_version, .sys_open "/lib/libc.so.6"],
            err := world0.err ++ ["Error: can not open ELF file '" ++ "/lib/libc.so.6" ++ "': "
              ++ "No such file or directory" ++ "\n"] }) :=
  ⟨by decide,
   file_open_error_after_version (demo_host 1052673 1048576 none 1 (.error 2)) "memcpy" world0
     { dli_fname := "/lib/libc.so.6", dli_fbase := 1048576, dli_sname := none } 2
     (by decide) rfl rfl (by decide) rfl⟩

/-! ## Handles -/

theorem lowest_free_not_mem (fds : List Nat) : lowest_free fds ∉ fds := by
  unfold lowest_free
  cases hfind : (List.range (fds.length + 1)).find? (fun n => !fds.contains n) with
  | some n =>
    have hn := List.find?_some hfind
    simpa using hn
  | none =>
    exfalso
    have hall : List.range (fds.length + 1) ⊆ fds := by
      intro n hn
      have hp := List.find?_eq_none.mp hfind n hn
      simpa using hp
    have hle := ((List.nodup_range (fds.length + 1)).subperm hall).length_le
    simp at hle

/-- C10: every return of `gnu_ifunc_resolve` is either the return at line
    107, inside the loop on a value match, which leaves the descriptor the
    call opened (a fresh one) and the ELF handle begun on it open, or one of
    the returns at lines 49, 58, 62, 71, 78, 84 (before the loop) and 114
    (after it), which leave the descriptors and ELF handles exactly as they
    were before the call; on the `elf_begin` failure path (line 84) the last
    two calls are `elf_begin` and the `close` of the descriptor just opened. -/
theorem handles_by_return_line (h : Host) (name : String) (w w1 : World) (line : Nat)
    (v : Option String) (hret : gnu_ifunc_resolve h name w = (.ret line v, w1)) :
    (line = 107 ∧ lowest_free w.fds ∉ w.fds
        ∧ w1.fds = lowest_free w.fds :: w.fds ∧ w1.elfs = lowest_free w.fds :: w.elfs)
      ∨ (line ∈ lines_outside_loop ∧ w1.fds = w.fds ∧ w1.elfs = w.elfs
        ∧ (line = 84 → ∃ cs, w1.calls = w.calls ++ cs ++
            [.elf_begin (lowest_free w.fds), .sys_close (lowest_free w.fds)])) := by
  obtain ⟨r, errs, hall⟩ := resolve_frame h name
  obtain ⟨cs, _, hcase⟩ := hall w
  rcases hcase with ⟨hkind, hrun⟩ | ⟨⟨line0, v0, hr, hmem, h84⟩, hrun⟩
  · rw [hrun] at hret
    injection hret with hres hw
    rcases hkind with ⟨v1, hv1⟩ | hfault
    · rw [hv1] at hres
      injection hres with hline _
      left
      refine ⟨hline.symm, lowest_free_not_mem w.fds, ?_, ?_⟩ <;> rw [← hw]
    · rw [hfault] at hres
      exact Result.noConfusion hres
  · rw [hrun] at hret
    injection hret with hres hw
    rw [hr] at hres
    injection hres with hline _
    right
    subst hline
    refine ⟨hmem, ?_, ?_, ?_⟩
    · rw [← hw]
    · rw [← hw]
    · intro hl
      obtain ⟨cs0, hcs0⟩ := h84 hl
      refine ⟨.dlsym name :: cs0, ?_⟩
      rw [← hw, hcs0]
      simp

theorem handles_by_return_line_witness :
    (107 = 107 ∧ lowest_free world0.fds ∉ world0.fds
        ∧ (gnu_ifunc_resolve (demo_host 1056768 1048576 none 1 (.ok (some demo_elf)))
            "memcpy" world0).2.fds = lowest_free world0.fds :: world0.fds
        ∧ (gnu_ifunc_resolve (demo_host 1056768 1048576 none 1 (.ok (some demo_elf)))
            "memcpy" world0).2.elfs = lowest_free world0.fds :: world0.elfs)
      ∨ (107 ∈ lines_outside_loop
        ∧ (gnu_ifunc_resolve (demo_host 1056768 1048576 none 1 (.ok (some demo_elf)))
            "memcpy" world0).2.fds = world0.fds
        ∧ (gnu_ifunc_resolve (demo_host 1056768 1048576 none 1 (.ok (some demo_elf)))
            "memcpy" world0).2.elfs = world0.elfs
        ∧ (107 = 84 → ∃ cs,
            (gnu_ifunc_resolve (demo_host 1056768 1048576 none 1 (.ok (some demo_elf)))
              "memcpy" world0).2.calls = world0.calls ++ cs ++
              [.elf_begin (lowest_free world0.fds), .sys_close (lowest_free world0.fds)])) :=
  handles_by_return_line (demo_host 1056768 1048576 none 1 (.ok (some demo_elf))) "memcpy"
    world0
    (gnu_ifunc_resolve (demo_host 1056768 1048576 none 1 (.ok (some demo_elf)))
      "memcpy" world0).2
    107 (some "__memmove_avx_unaligned_erms") (by decide)

/-- C4 fails on the code: on a host where the scan finds a matching entry
    the call returns the name at line 107 with the descriptor 3 it opened and
    the ELF handle begun on it still open, and after the seven queries of the
    driver seven more descriptors are open than before. -/
theorem handles_leak_on_match :
    (gnu_ifunc_resolve (demo_host 1056768 1048576 none 1 (.ok (some demo_elf)))
        "memcpy" world0).1 = .ret 107 (some "__memmove_avx_unaligned_erms")
      ∧ (gnu_ifunc_resolve (demo_host 1056768 1048576 none 1 (.ok (some demo_elf)))
        "memcpy" world0).2.fds = 3 :: world0.fds
      ∧ (gnu_ifunc_resolve (demo_host 1056768 1048576 none 1 (.ok (some demo_elf)))
        "memcpy" world0).2.elfs = [3]
      ∧ (main (demo_host 1056768 1048576 none 1 (.ok (some demo_elf))) world0).2.fds.length
        = world0.fds.length + 7 := by
  decide

/-! ## The driver -/

theorem looked_up_append (a b : List Call) : looked_up (a ++ b) = looked_up a ++ looked_up b := by
  simp [looked_up]

theorem looked_up_of_no_dlsym : ∀ cs : List Call, (∀ c ∈ cs, c.is_dlsym = false) → looked_up cs = []
  | [], _ => rfl
  | c :: cs, hno => by
    have hc : c.is_dlsym = false := hno c (List.mem_cons_self _ _)
    have ih := looked_up_of_no_dlsym cs (fun d hd => hno d (List.mem_cons_of_mem _ hd))
    simp only [looked_up] at ih
    cases c <;> simp_all [looked_up, Call.is_dlsym]

theorem resolve_effect (h : Host) (name : String) (w : World) :
    (gnu_ifunc_resolve h name w).1 = resolved h name
      ∧ (gnu_ifunc_resolve h name w).2.out = w.out
      ∧ (gnu_ifunc_resolve h name w).2.err = w.err ++ diagnostics h name
      ∧ looked_up (gnu_ifunc_resolve h name w).2.calls = looked_up w.calls ++ [name] := by
  obtain ⟨r, errs, hall⟩ := resolve_frame h name
  have hres : resolved h name = r := by
    obtain ⟨cs, _, hcase⟩ := hall blank
    unfold resolved
    rcases hcase with ⟨_, hrun⟩ | ⟨_, hrun⟩ <;> rw [hrun]
  have hdiag : diagnostics h name = errs := by
    obtain ⟨cs, _, hcase⟩ := hall blank
    unfold diagnostics
    rcases hcase with ⟨_, hrun⟩ | ⟨_, hrun⟩ <;> rw [hrun] <;> simp [blank]
  obtain ⟨cs, hcs, hcase⟩ := hall w
  have hlook : looked_up (w.calls ++ Call.dlsym name :: cs) = looked_up w.calls ++ [name] := by
    rw [looked_up_append]
    have hcons : looked_up (Call.dlsym name :: cs) = name :: looked_up cs := by
      simp [looked_up]
    rw [hcons, looked_up_of_no_dlsym cs hcs]
  rw [hres, hdiag]
  rcases hcase with ⟨_, hrun⟩ | ⟨_, hrun⟩ <;> rw [hrun] <;> exact ⟨rfl, rfl, rfl, hlook⟩

theorem main_loop_report (h : Host) :
    ∀ (names : List String) (w : World), (∀ n ∈ names, (resolved h n).returns = true) →
      (main_loop h names w).1 = some 0
        ∧ (main_loop h names w).2.out = w.out ++ names.flatMap (report_out h)
        ∧ (main_loop h names w).2.err = w.err ++ names.flatMap (report_err h)
        ∧ looked_up (main_loop h names w).2.calls = looked_up w.calls ++ names
  | [], w, _ => by simp [main_loop]
  | name :: rest, w, hret => by
    have hrest : ∀ n ∈ rest, (resolved h n).returns = true :=
      fun n hn => hret n (List.mem_cons_of_mem _ hn)
    have hname : (resolved h name).returns = true := hret name (List.mem_cons_self _ _)
    obtain ⟨hres, hout, herr, hlook⟩ := resolve_effect h name w
    rw [main_loop]
    cases hrun : gnu_ifunc_resolve h name w with
    | mk r w1 =>
      rw [hrun] at hres hout herr hlook
      simp only at hres hout herr hlook
      cases r with
      | fault =>
        rw [← hres] at hname
        exact absurd hname (by decide)
      | ret line v =>
        cases v with
        | some sym =>
          obtain ⟨h1, h2, h3, h4⟩ := main_loop_report h rest
            (w1.print ("GNU IFUNC '" ++ name ++ "' is resolved to '" ++ sym ++ "'\n")) hrest
          have hro : report_out h name = [success_line name sym] := by
            simp [report_out, ← hres, Result.value]
          have hre : report_err h name = diagnostics h name := by
            simp [report_err, ← hres, Result.value]
          refine ⟨h1, ?_, ?_, ?_⟩
          · rw [h2]
            simp [World.print, hout, hro, success_line, List.flatMap_cons]
          · rw [h3]
            simp [World.print, herr, hre, List.flatMap_cons]
          · rw [h4]
            simp [World.print, hlook]
        | none =>
          obtain ⟨h1, h2, h3, h4⟩ := main_loop_report h rest
            (w1.eprint ("Error: can not resolve ifunc '" ++ name ++ "'\n")) hrest
          have hro : report_out h name = [] := by
            simp [report_out, ← hres, Result.value]
          have hre : report_err h name = diagnostics h name ++ [failure_line name] := by
            simp [report_err, ← hres, Result.value]
          refine ⟨h1, ?_, ?_, ?_⟩
          · rw [h2]
            simp [World.eprint, hout, hro, List.flatMap_cons]
          · rw [h3]
            simp [World.eprint, herr, hre, failure_line, List.flatMap_cons]
          · rw [h4]
            simp [World.eprint, hlook]

/-- C7, as stated, fails: on a host where `memcpy` is unknown and the
    module of `strcmp` has a symbol table with `sh_entsize = 0`, the first
    query fails and is reported, the second one ends the process in the
    division at line 102, so the driver does not exit with status 0 and the
    names after `strcmp` are never queried. -/
theorem batch_aborted_by_division_fault :
    (gnu_ifunc_resolve faulting_host "memcpy" world0).1 = .ret 49 none
      ∧ resolved faulting_host "strcmp" = .fault
      ∧ (main faulting_host world0).1 = none
      ∧ (main faulting_host world0).1 ≠ some 0
      ∧ looked_up (main faulting_host world0).2.calls = ["memcpy", "strcmp"]
      ∧ (main faulting_host world0).2.out = ["GNU libc version: 2.28, release: stable\n"]
      ∧ (main faulting_host world0).2.err =
          ["Error: can not obtain address of a symbol 'memcpy': undefined symbol\n",
           "Error: can not resolve ifunc 'memcpy'\n"] := by
  decide

/-- C7, amended: when each of the seven queries returns (a name or NULL),
    the driver exits with status
    0; the names handed to `dlsym`, one per call of `gnu_ifunc_resolve`, are
    memcpy, strcmp, malloc, strlen, strcmp, strcpy, cos in that order,
    whichever of them failed; standard output gets the preamble and then, in
    query order, exactly the line "GNU IFUNC 'name' is resolved to 'r'" for
    each query that succeeds with `r`; standard error gets, in query order,
    the diagnostics of each query followed, for each query that fails, by
    the line "Error: can not resolve ifunc 'name'". -/
theorem batch_recovers_per_query (h : Host) (w : World)
    (hret : ∀ n ∈ ifunc_syms, (resolved h n).returns = true) :
    (main h w).1 = some 0
      ∧ looked_up (main h w).2.calls = looked_up w.calls
          ++ ["memcpy", "strcmp", "malloc", "strlen", "strcmp", "strcpy", "cos"]
      ∧ (main h w).2.out = w.out ++ preamble h :: ifunc_syms.flatMap (report_out h)
      ∧ (main h w).2.err = w.err ++ ifunc_syms.flatMap (report_err h)
      ∧ (∀ n ∈ ifunc_syms, ∀ r, (resolved h n).value = some r →
          "GNU IFUNC '" ++ n ++ "' is resolved to '" ++ r ++ "'\n" ∈ (main h w).2.out)
      ∧ (∀ n ∈ ifunc_syms, (resolved h n).value = none →
          "Error: can not resolve ifunc '" ++ n ++ "'\n" ∈ (main h w).2.err) := by
  obtain ⟨h1, h2, h3, h4⟩ := main_loop_report h ifunc_syms (w.print (preamble h)) hret
  have hout : (main h w).2.out = w.out ++ preamble h :: ifunc_syms.flatMap (report_out h) := by
    show (main_loop h ifunc_syms (w.print (preamble h))).2.out = _
    rw [h2]
    simp [World.print]
  have herr : (main h w).2.err = w.err ++ ifunc_syms.flatMap (report_err h) := by
    show (main_loop h ifunc_syms (w.print (preamble h))).2.err = _
    rw [h3]
    simp [World.print]
  refine ⟨h1, ?_, hout, herr, ?_, ?_⟩
  · show looked_up (main_loop h ifunc_syms (w.print (preamble h))).2.calls = _
    rw [h4]
    simp [World.print, ifunc_syms]
  · intro n hn r hr
    rw [hout]
    refine List.mem_append_right _ (List.mem_cons_of_mem _ ?_)
    rw [List.mem_flatMap]
    exact ⟨n, hn, by simp [report_out, hr, success_line]⟩
  · intro n hn hr
    rw [herr]
    refine List.mem_append_right _ ?_
    rw [List.mem_flatMap]
    exact ⟨n, hn, by simp [report_err, hr, failure_line]⟩

theorem batch_recovers_per_query_witness :
    (main mixed_host world0).1 = some 0
      ∧ looked_up (main mixed_host world0).2.calls = looked_up world0.calls
          ++ ["memcpy", "strcmp", "malloc", "strlen", "strcmp", "strcpy", "cos"]
      ∧ (main mixed_host world0).2.out =
          world0.out ++ preamble mixed_host :: ifunc_syms.flatMap (report_out mixed_host)
      ∧ (main mixed_host world0).2.err =
          world0.err ++ ifunc_syms.flatMap (report_err mixed_host)
      ∧ (∀ n ∈ ifunc_syms, ∀ r, (resolved mixed_host n).value = some r →
          "GNU IFUNC '" ++ n ++ "' is resolved to '" ++ r ++ "'\n" ∈ (main mixed_host world0).2.out)
      ∧ (∀ n ∈ ifunc_syms, (resolved mixed_host n).value = none →
          "Error: can not resolve ifunc '" ++ n ++ "'\n" ∈ (main mixed_host world0).2.err) :=
  batch_recovers_per_query mixed_host world0 (by decide)

end GnuIfuncResolve
